import Mathlib

/-!
Verification of the servo-vdom script component against its specification.

This development shallowly embeds the rooting/refcounting primitives
(`dom/bindings/refcounted.rs`, `dom/bindings/js.rs`,
`dom/bindings/inheritance.rs`, `dom/bindings/typed.rs`) and the
script-thread event loop (`script_thread.rs`) as executable Lean
definitions, and proves or refutes the specification's claims about them.

Identities (raw pointers) are modelled as natural numbers; channels are
modelled by identifiers plus explicit lists of the messages sent on them.
-/

namespace ServoVdom

/-! ## Cross-thread trusted handles: src/servo/components/script/dom/bindings/refcounted.rs

The module's own documentation (lines 16-23 of the file) describes a
hashtable of atomic reference counts keyed on the DOM object pointer,
incremented by `new`/`clone`, decremented by `drop`, with a cleanup
message dispatched to the script thread when the count hits zero.  The
implementation below is the faithful embedding of what the file actually
contains: no registry is touched and no message is ever sent. -/

/-- Script-thread message kind relevant here: the reference-count cleanup
notification (`CommonScriptMsg::RefcountCleanup(addr)` dispatched at
script_thread.rs line 885). -/
inductive CommonScriptMsg where
  | refcountCleanup (addr : Nat)
deriving DecidableEq, Repr

/-- State of the world observable through a `ScriptChan`: the list of
messages sent on it so far. -/
structure ChanWorld where
  sent : List CommonScriptMsg
deriving DecidableEq, Repr

/-- A `Trusted<T>` handle: a raw pointer (identity) plus the script
channel it stores (refcounted.rs lines 48-54). -/
structure Trusted where
  ptr : Nat
  script_chan : Nat
deriving DecidableEq, Repr

/-- Embedding of `Trusted::new` (refcounted.rs lines 62-68): stores the
pointer and a clone of the channel.  The function body touches no
registry and sends nothing on the channel. -/
def Trusted.new (ptr : Nat) (script_chan : Nat) (w : ChanWorld) :
    Trusted × ChanWorld :=
  (⟨ptr, script_chan⟩, w)

/-- Embedding of `Clone for Trusted` (refcounted.rs lines 80-88): copies
the pointer and the channel; no registry access, no send. -/
def Trusted.clone (t : Trusted) (w : ChanWorld) : Trusted × ChanWorld :=
  (⟨t.ptr, t.script_chan⟩, w)

/-- Embedding of `Drop for Trusted` (refcounted.rs lines 90-93): the
body of `drop` is empty, so the world is unchanged and nothing is sent. -/
def Trusted.drop (_t : Trusted) (w : ChanWorld) : ChanWorld := w

/-- One trusted-handle operation on a single object identity. -/
inductive TrustedOp where
  | newOp
  | cloneOp
  | dropOp
deriving DecidableEq, Repr

/-- Run a sequence of trusted-handle operations for one identity `ptr`
with channel `chan`, threading the channel world through the embedded
source operations. -/
def runTrustedOps (ptr chan : Nat) : List TrustedOp → ChanWorld → ChanWorld
  | [], w => w
  | op :: rest, w =>
    match op with
    | .newOp => runTrustedOps ptr chan rest (Trusted.new ptr chan w).2
    | .cloneOp => runTrustedOps ptr chan rest (Trusted.clone ⟨ptr, chan⟩ w).2
    | .dropOp => runTrustedOps ptr chan rest (Trusted.drop ⟨ptr, chan⟩ w)

/-! ## The trusted-handle registry, modelled from the spec (for claim C2)

`script_thread.rs` line 32 imports `LiveDOMReferences` from
`dom::bindings::refcounted` and line 886 dispatches
`CommonScriptMsg::RefcountCleanup(addr)` to `LiveDOMReferences::cleanup(addr)`,
but no definition of `LiveDOMReferences` exists anywhere under src. -/

/-- Modelled from the spec: the script-thread registry of trusted-handle
reference counts (`LiveDOMReferences`), whose definition is missing from
src (only its importer and caller in script_thread.rs lines 32 and 886
survive).  Spec section 4.4: a table keyed by object identity holding an
atomic reference count per entry. -/
structure LiveDOMReferences where
  table : List (Nat × Nat)
deriving DecidableEq, Repr

/-- Look up the reference count recorded for an identity. -/
def LiveDOMReferences.lookup (r : LiveDOMReferences) (ptr : Nat) : Option Nat :=
  (r.table.find? (fun e => e.fst = ptr)).map (fun e => e.snd)

/-- Install-or-increment on a count table: bump the entry for `ptr`, or
append a fresh entry with count one. -/
def bumpEntry : List (Nat × Nat) → Nat → List (Nat × Nat)
  | [], ptr => [(ptr, 1)]
  | e :: rest, ptr =>
    if e.fst = ptr then (e.fst, e.snd + 1) :: rest else e :: bumpEntry rest ptr

/-- Decrement the count of the entry for `ptr`, when present. -/
def decEntry : List (Nat × Nat) → Nat → List (Nat × Nat)
  | [], _ => []
  | e :: rest, ptr =>
    if e.fst = ptr then (e.fst, e.snd - 1) :: rest else e :: decEntry rest ptr

/-- Remove the entry for `ptr` from a count table. -/
def removeEntry : List (Nat × Nat) → Nat → List (Nat × Nat)
  | [], _ => []
  | e :: rest, ptr =>
    if e.fst = ptr then rest else e :: removeEntry rest ptr

/-- Modelled from the spec: constructing or cloning a trusted handle
installs-or-increments the registry entry for the object's identity
(spec section 4.4, "Construct: ... install-or-increment a registry entry"). -/
def LiveDOMReferences.addRef (r : LiveDOMReferences) (ptr : Nat) :
    LiveDOMReferences :=
  ⟨bumpEntry r.table ptr⟩

/-- Modelled from the spec: dropping a trusted handle decrements the
count and, exactly when it reaches zero, sends a cleanup message on the
stored channel (spec section 4.4, "Drop: decrements the count; if it
reaches zero, sends a cleanup message"). -/
def LiveDOMReferences.dropRef (r : LiveDOMReferences) (ptr : Nat)
    (w : ChanWorld) : LiveDOMReferences × ChanWorld :=
  let r' : LiveDOMReferences := ⟨decEntry r.table ptr⟩
  match r'.lookup ptr with
  | some 0 => (r', ⟨w.sent ++ [.refcountCleanup ptr]⟩)
  | _ => (r', w)

/-- Modelled from the spec: the cleanup handler invoked for
`CommonScriptMsg::RefcountCleanup` (script_thread.rs line 886) re-checks
that the count is still zero before removing the entry and releasing the
underlying root; otherwise it leaves the registry untouched (spec section
4.4 failure mode). -/
def LiveDOMReferences.cleanup (r : LiveDOMReferences) (ptr : Nat) :
    LiveDOMReferences :=
  match r.lookup ptr with
  | some 0 => ⟨removeEntry r.table ptr⟩
  | _ => r

/-- An object is reachable through `Trusted::root` for as long as its
registry entry exists and keeps it rooted (spec sections 3 and 4.4). -/
def LiveDOMReferences.canRoot (r : LiveDOMReferences) (ptr : Nat) : Bool :=
  (r.lookup ptr).isSome

/-! ## Runtime type tags: src/servo/components/script/dom/bindings/inheritance.rs

The type-id enums below are transcribed from inheritance.rs lines 46-266. -/

/-- inheritance.rs lines 91-95. -/
inductive HTMLTableCellElementTypeId where
  | HTMLTableDataCellElement
  | HTMLTableHeaderCellElement
deriving DecidableEq, Repr

/-- inheritance.rs lines 129-133. -/
inductive HTMLMediaElementTypeId where
  | HTMLAudioElement
  | HTMLVideoElement
deriving DecidableEq, Repr

/-- inheritance.rs lines 135-142. -/
inductive UIEventTypeId where
  | UIEvent
  | FocusEvent
  | KeyboardEvent
  | MouseEvent
  | TouchEvent
deriving DecidableEq, Repr

/-- inheritance.rs lines 150-155. -/
inductive CharacterDataTypeId where
  | Comment
  | ProcessingInstruction
  | Text
deriving DecidableEq, Repr

/-- inheritance.rs lines 173-239. -/
inductive HTMLElementTypeId where
  | HTMLElement
  | HTMLAnchorElement
  | HTMLAppletElement
  | HTMLAreaElement
  | HTMLBRElement
  | HTMLBaseElement
  | HTMLBodyElement
  | HTMLButtonElement
  | HTMLCanvasElement
  | HTMLDListElement
  | HTMLDataElement
  | HTMLDataListElement
  | HTMLDetailsElement
  | HTMLDialogElement
  | HTMLDirectoryElement
  | HTMLDivElement
  | HTMLEmbedElement
  | HTMLFieldSetElement
  | HTMLFontElement
  | HTMLFormElement
  | HTMLFrameElement
  | HTMLFrameSetElement
  | HTMLHRElement
  | HTMLHeadElement
  | HTMLHeadingElement
  | HTMLHtmlElement
  | HTMLImageElement
  | HTMLInputElement
  | HTMLLIElement
  | HTMLLabelElement
  | HTMLLegendElement
  | HTMLLinkElement
  | HTMLMapElement
  | HTMLMediaElement (t : HTMLMediaElementTypeId)
  | HTMLMetaElement
  | HTMLMeterElement
  | HTMLModElement
  | HTMLOListElement
  | HTMLObjectElement
  | HTMLOptGroupElement
  | HTMLOptionElement
  | HTMLOutputElement
  | HTMLParagraphElement
  | HTMLParamElement
  | HTMLPreElement
  | HTMLProgressElement
  | HTMLQuoteElement
  | HTMLSelectElement
  | HTMLSourceElement
  | HTMLSpanElement
  | HTMLStyleElement
  | HTMLTableCaptionElement
  | HTMLTableCellElement (t : HTMLTableCellElementTypeId)
  | HTMLTableColElement
  | HTMLTableElement
  | HTMLTableRowElement
  | HTMLTableSectionElement
  | HTMLTemplateElement
  | HTMLTextAreaElement
  | HTMLTimeElement
  | HTMLTitleElement
  | HTMLTrackElement
  | HTMLUListElement
  | HTMLUnknownElement

/-- inheritance.rs lines 144-148. -/
inductive ElementTypeId where
  | Element
  | HTMLElement (t : HTMLElementTypeId)

/-- inheritance.rs lines 65-72. -/
inductive NodeTypeId where
  | CharacterData (t : CharacterDataTypeId)
  | Document
  | DocumentFragment
  | DocumentType
  | Element (t : ElementTypeId)

/-- inheritance.rs lines 74-79. -/
inductive EventTargetTypeId where
  | EventSource
  | Node (t : NodeTypeId)
  | Window

/-- inheritance.rs lines 257-266. -/
inductive EventTypeId where
  | Event
  | CloseEvent
  | CustomEvent
  | ErrorEvent
  | MessageEvent
  | ProgressEvent
  | UIEvent (t : UIEventTypeId)
deriving DecidableEq, Repr

/-- inheritance.rs lines 97-101. -/
inductive DOMPointReadOnlyTypeId where
  | DOMPointReadOnly
  | DOMPoint
deriving DecidableEq, Repr

/-- inheritance.rs lines 157-161. -/
inductive DOMRectReadOnlyTypeId where
  | DOMRectReadOnly
  | DOMRect
deriving DecidableEq, Repr

/-- inheritance.rs lines 113-117. -/
inductive HTMLCollectionTypeId where
  | HTMLCollection
  | HTMLFormControlsCollection
deriving DecidableEq, Repr

/-- inheritance.rs lines 241-245. -/
inductive NodeListTypeId where
  | NodeList
  | RadioNodeList
deriving DecidableEq, Repr

/-- inheritance.rs lines 46-63: the top-level runtime type tag carried by
every castable DOM object. -/
inductive TopTypeId where
  | Abstract
  | Alone
  | DOMPointReadOnly (t : DOMPointReadOnlyTypeId)
  | DOMRectReadOnly (t : DOMRectReadOnlyTypeId)
  | Event (t : EventTypeId)
  | EventTarget (t : EventTargetTypeId)
  | HTMLCollection (t : HTMLCollectionTypeId)
  | NodeList (t : NodeListTypeId)

/-! ## Casting: inheritance.rs lines 14-41 and js.rs lines 107-129, 406-425

A DOM object is its identity (pointer value) plus the runtime type tag
returned by `Typed::get_type`.  A target interface `U` of a cast is
represented by its `Typed::is_subtype` tag predicate (typed.rs lines
12-18); `make_typed!` in typed.rs generates one such pattern-match
predicate per interface. -/

/-- A GC-managed DOM object: identity plus runtime type tag. -/
structure DomObject where
  id : Nat
  ty : TopTypeId

/-- An IDL interface, as seen by the cast machinery: its
`Typed::is_subtype` test on top-level type tags (typed.rs lines 12-18). -/
structure Interface where
  is_subtype : TopTypeId → Bool

/-- `Castable::is::<T>` (inheritance.rs lines 16-21): read the object's
type tag and apply the target interface's subtype test. -/
def Castable.is (u : Interface) (obj : DomObject) : Bool :=
  u.is_subtype obj.ty

/-- `Castable::upcast::<T>` (inheritance.rs lines 24-29): a transmute,
i.e. the identical object viewed at a supertype. -/
def Castable.upcast (obj : DomObject) : DomObject := obj

/-- `Castable::downcast::<T>` (inheritance.rs lines 32-40): checked
reinterpretation; yields the same representation exactly when the type
tag passes the subtype test. -/
def Castable.downcast (u : Interface) (obj : DomObject) : Option DomObject :=
  if Castable.is u obj then some obj else none

/-- A rooted handle (js.rs lines 400-404): the wrapped pointer to the
rooted value.  In this fork `Root` has no `Drop` implementation and no
root-collection bookkeeping. -/
structure Root where
  obj : DomObject

/-- An unrooted layout-flavored reference (js.rs lines 103-105). -/
structure LayoutJS where
  obj : DomObject

/-- `Root::upcast` (js.rs lines 408-413): a transmute of the rooted
handle itself. -/
def Root.upcast (root : Root) : Root := root

/-- `Root::downcast` (js.rs lines 416-424): `is` check then transmute of
the handle. -/
def Root.downcast (u : Interface) (root : Root) : Option Root :=
  if Castable.is u root.obj then some root else none

/-- `LayoutJS::upcast` (js.rs lines 109-115): a `transmute_copy`. -/
def LayoutJS.upcast (r : LayoutJS) : LayoutJS := r

/-- `LayoutJS::downcast` (js.rs lines 118-129): `is` check on the
pointee then `transmute_copy`. -/
def LayoutJS.downcast (u : Interface) (r : LayoutJS) : Option LayoutJS :=
  if Castable.is u r.obj then some r else none

/-- `Typed::is_subtype` for `MouseEvent`, generated by `make_typed!`
(typed.rs lines 68-69). -/
def MouseEvent.is_subtype : TopTypeId → Bool
  | .Event (.UIEvent .MouseEvent) => true
  | _ => false

/-- `Typed::is_subtype` for `UIEvent`, generated by `make_typed!`
(typed.rs lines 77-78): any UI event tag matches. -/
def UIEvent.is_subtype : TopTypeId → Bool
  | .Event (.UIEvent _) => true
  | _ => false

/-! ## Rooted handles over a heap: js.rs lines 393-473 (for claim C6) -/

/-- The arena of native object payloads, keyed by object identity. -/
abbrev Heap := List (Nat × Nat)

/-- Dereference an identity in the arena. -/
def Heap.derefAt (h : Heap) (ptr : Nat) : Option Nat :=
  (h.find? (fun e => e.fst = ptr)).map (fun e => e.snd)

/-- `Root::new` (js.rs lines 441-446): wraps the unrooted pointer; no
other state is consulted or modified. -/
def Root.new (unrooted : DomObject) : Root := ⟨unrooted⟩

/-- `Root::from_ref` (js.rs lines 449-451): `Root::new` on the address of
the reference. -/
def Root.from_ref (unrooted : DomObject) : Root := Root.new unrooted

/-- `Root::r` / `Deref` (js.rs lines 455-466): the reference to the
wrapped value. -/
def Root.r (root : Root) : DomObject := root.obj

/-- `PartialEq for Root` (js.rs lines 468-472): equality compares the
wrapped pointers, i.e. identity. -/
def Root.ptrEq (a b : Root) : Bool := a.obj.id = b.obj.id

/-- Destroying a `Root` in this fork runs no code: js.rs declares no
`Drop` implementation and no `RootCollection` un-registration, so the
heap (and every other handle) is untouched. -/
def Root.dropRoot (_root : Root) (h : Heap) : Heap := h

/-! ## Mutable nullable GC cell: js.rs lines 261-315 (for claim C8) -/

/-- `MutNullableHeap<JS<T>>` (js.rs lines 261-263): a cell holding an
optional unrooted reference, here the optional identity of the referent. -/
structure MutNullableHeap where
  cell : Option Nat
deriving DecidableEq, Repr

/-- `MutNullableHeap::get` (js.rs lines 300-305): read the cell, rooting
the current value if present. -/
def MutNullableHeap.get (c : MutNullableHeap) : Option Nat := c.cell

/-- `MutNullableHeap::set` (js.rs lines 308-313): overwrite the cell. -/
def MutNullableHeap.set (_c : MutNullableHeap) (val : Option Nat) :
    MutNullableHeap := ⟨val⟩

/-- `MutNullableHeap::or_init` (js.rs lines 276-288): return the held
value if present; otherwise invoke the initializer once, store its result
via `set`, and return it.  The result triple is (returned value, cell
afterwards, number of initializer invocations). -/
def MutNullableHeap.or_init (c : MutNullableHeap) (cb : Unit → Nat) :
    Nat × MutNullableHeap × Nat :=
  match c.get with
  | some inner => (inner, c, 0)
  | none =>
    let inner := cb ()
    (inner, c.set (some inner), 1)

/-! ## The script thread: src/servo/components/script/script_thread.rs

Data model used by the event loop.  The `Window`, `Document` and `Page`
types themselves live outside src (only their callers survive), so they
are modelled with exactly the state the script-thread code consults: a
page's pipeline id, its window's layout channel and pending-reflow
counter, and its document's URL and fragment-name table. -/

/-- Pipelines are identified by numeric ids. -/
abbrev PipelineId := Nat

/-- A URL as compared by `handle_navigate` (script_thread.rs lines
1422-1424): scheme, scheme data, query and fragment components. -/
structure Url where
  scheme : Nat
  schemeData : Nat
  query : Option Nat
  fragment : Option Nat
deriving DecidableEq, Repr

/-- The HTTP method carried by a load request; `handle_navigate` only
distinguishes `Get` (script_thread.rs line 1424). -/
inductive Method where
  | get
  | post
deriving DecidableEq, Repr

/-- A load request: URL plus method. -/
structure LoadData where
  url : Url
  method : Method
deriving DecidableEq, Repr

/-- A document, with the state `handle_navigate` consults: its URL and
its table of fragment names to node ids (`find_fragment_node` resolves a
fragment to a node, absent when no node matches). -/
structure Document where
  url : Url
  fragmentNodes : List (Nat × Nat)
deriving DecidableEq, Repr

/-- `Document::find_fragment_node`: resolve a fragment name in the
document, yielding the matching node's id when one exists. -/
def Document.find_fragment_node (d : Document) (frag : Nat) : Option Nat :=
  (d.fragmentNodes.find? (fun e => e.fst = frag)).map (fun e => e.snd)

/-- A page with its window state as consulted by the event loop: pipeline
id, the window's pending-reflow counter (`get_pending_reflow_count`,
script_thread.rs line 759), the window's layout channel, and the page's
document. -/
structure Page where
  pipeline : PipelineId
  pendingReflows : Nat
  layoutChan : Nat
  doc : Document
deriving DecidableEq, Repr

/-- The frame tree rooted at the root page, modelled one level deep
(root plus child pages); `Page::iter` enumerates the root first. -/
structure PageTree where
  root : Page
  subpages : List Page
deriving DecidableEq, Repr

/-- `Page::iter`: the root page followed by its descendants. -/
def PageTree.iter (t : PageTree) : List Page := t.root :: t.subpages

/-- `Page::find`: locate the page with the given pipeline id in the
tree. -/
def PageTree.find (t : PageTree) (id : PipelineId) : Option Page :=
  if t.root.pipeline = id then some t.root
  else t.subpages.find? (fun pg => pg.pipeline = id)

/-- An in-progress (incomplete) load (script_thread.rs lines 100-128):
the pipeline being loaded and its layout collaborator's channel. -/
structure InProgressLoad where
  pipelineId : PipelineId
  layoutChan : Nat
deriving DecidableEq, Repr

/-- Messages the script thread sends to a layout collaborator
(`layout_interface::Msg`): the prepare-to-exit/exit-now handshake. -/
inductive LayoutMsg where
  | prepareToExit (chan : Nat)
  | exitNow (chan : Nat)
deriving DecidableEq, Repr

/-- A compositor event delivered through `SendEvent`.  The coalescing
loop (script_thread.rs lines 687-699) distinguishes only
`MouseMoveEvent` from every other variant, so the remaining variants are
carried as an opaque payload. -/
inductive CompositorEvent where
  | mouseMoveEvent (point : Nat)
  | otherEvent (payload : Nat)
deriving DecidableEq, Repr

/-- Control messages from the constellation (the variants matched by the
collecting loop at script_thread.rs lines 660-703 and the dispatch loop
at lines 727-750; remaining variants are carried opaquely and handled by
`handle_msg_from_constellation`). -/
inductive ConstellationControlMsg where
  | attachLayout
  | resize (id : PipelineId) (size : Nat)
  | viewport (id : PipelineId) (rect : Nat)
  | tickAllAnimations (id : PipelineId)
  | sendEvent (id : PipelineId) (ev : CompositorEvent)
  | exitPipeline (id : PipelineId)
  | otherMsg (payload : Nat)
deriving DecidableEq, Repr

/-- `MixedMessage` (script_thread.rs lines 439-446): one message from
any of the five multiplexed sources. -/
inductive MixedMessage where
  | fromConstellation (msg : ConstellationControlMsg)
  | fromScript (payload : Nat)
  | fromScheduler (payload : Nat)
  | fromDevtools (payload : Nat)
  | fromImageCache (payload : Nat)
deriving DecidableEq, Repr

/-- Abbreviation for a mouse-move message addressed to pipeline `id`
carrying `point`. -/
def mmMsg (id : PipelineId) (point : Nat) : MixedMessage :=
  .fromConstellation (.sendEvent id (.mouseMoveEvent point))

/-- Whether a message is a mouse-move event message, i.e. matches the
coalescing arm `FromConstellation(SendEvent(_, MouseMoveEvent(_)))`. -/
def isMouseMoveMsg : MixedMessage → Bool
  | .fromConstellation (.sendEvent _ (.mouseMoveEvent _)) => true
  | _ => false

/-- Number of mouse-move event messages in a batch. -/
def mmCount : List MixedMessage → Nat
  | [] => 0
  | ev :: rest => (if isMouseMoveMsg ev then 1 else 0) + mmCount rest

/-- State threaded through the collecting loop (script_thread.rs lines
622-724): the batch built so far (`sequential`), the recorded index of
the pending mouse-move event, the set of pipelines with an animation
tick already queued, and the resize/viewport events handled out of band
against the target page instead of being queued. -/
structure CoalesceState where
  sequential : List MixedMessage
  mouseMoveEventIndex : Option Nat
  animationTicks : List PipelineId
  outOfBand : List MixedMessage
deriving DecidableEq, Repr

/-- The collecting loop's state before the first message. -/
def initCoalesce : CoalesceState := ⟨[], none, [], []⟩

/-- One iteration of the collecting loop's match (script_thread.rs lines
660-703).  `AttachLayout` asserts false (lines 665-669), modelled as
`none`; `Resize` and `Viewport` are handled immediately out of band
(lines 670-679); repeated animation ticks for a pipeline collapse (lines
680-686); a mouse-move event is queued at a recorded index and a later
one replaces it in place (lines 687-699); everything else is appended to
the batch (lines 700-702). -/
def coalesceStep (s : CoalesceState) (event : MixedMessage) :
    Option CoalesceState :=
  match event with
  | .fromConstellation .attachLayout => none
  | .fromConstellation (.resize _ _) =>
    some { s with outOfBand := s.outOfBand ++ [event] }
  | .fromConstellation (.viewport _ _) =>
    some { s with outOfBand := s.outOfBand ++ [event] }
  | .fromConstellation (.tickAllAnimations pipelineId) =>
    if s.animationTicks.contains pipelineId then some s
    else
      some { s with animationTicks := pipelineId :: s.animationTicks,
                    sequential := s.sequential ++ [event] }
  | .fromConstellation (.sendEvent _ (.mouseMoveEvent _)) =>
    match s.mouseMoveEventIndex with
    | none =>
      some { s with mouseMoveEventIndex := some s.sequential.length,
                    sequential := s.sequential ++ [event] }
    | some index =>
      some { s with sequential := s.sequential.set index event }
  | _ => some { s with sequential := s.sequential ++ [event] }

/-- Run the collecting loop over the drained input sequence. -/
def coalesceRun (s : CoalesceState) : List MixedMessage → Option CoalesceState
  | [] => some s
  | ev :: rest =>
    match coalesceStep s ev with
    | none => none
    | some s' => coalesceRun s' rest

/-- The reasons attached to reflow requests
(`ReflowReason`, as used from script_thread.rs). -/
inductive ReflowReason where
  | firstLoad
  | imageLoaded
  | missingExplicitReflow
  | viewport
  | windowResize
  | webFontLoaded
  | cachedPageNeededReflow
deriving DecidableEq, Repr

/-- Kinds of panic the embedded script-thread operations can raise. -/
inductive PanicKind where
  | assertionFailure
  | noRootPage
  | pageNotFound
deriving DecidableEq, Repr

/-- The script-thread state consulted by exit handling (script_thread.rs
lines 321-397): the optional root page tree, the incomplete-load queue,
the closed-pipeline set, and the messages sent to layout collaborators. -/
structure ThreadState where
  page : Option PageTree
  incompleteLoads : List InProgressLoad
  closedPipelines : List PipelineId
  layoutMsgs : List LayoutMsg
deriving DecidableEq, Repr

/-- Find-and-remove the first incomplete load for a pipeline, mirroring
`position` followed by `remove(idx)` (script_thread.rs lines 1096-1101). -/
def removeFirstLoad : List InProgressLoad → PipelineId →
    Option (InProgressLoad × List InProgressLoad)
  | [], _ => none
  | l :: rest, id =>
    if l.pipelineId = id then some (l, rest)
    else
      match removeFirstLoad rest id with
      | none => none
      | some (found, rest') => some (found, l :: rest')

/-- Find-and-remove a child page by pipeline id, mirroring
`Page::remove` as called at script_thread.rs line 1130. -/
def removeSubpage : List Page → PipelineId → Option (Page × List Page)
  | [], _ => none
  | pg :: rest, id =>
    if pg.pipeline = id then some (pg, rest)
    else
      match removeSubpage rest id with
      | none => none
      | some (found, rest') => some (found, pg :: rest')

/-- `shut_down_layout` (script_thread.rs lines 1538-1565) restricted to
its channel traffic: a prepare-to-exit round-trip per page in the tree,
then an exit-now per page.  (It also severs each page's frame and clears
the windows' script contexts; `self.page` itself is not cleared.) -/
def shut_down_layout (pages : List Page) : List LayoutMsg :=
  (pages.map (fun pg => .prepareToExit pg.layoutChan))
    ++ (pages.map (fun pg => .exitNow pg.layoutChan))

/-- `ScriptThread::handle_exit_pipeline_msg` (script_thread.rs lines
1092-1134).  Records the pipeline as closed; if the pipeline is an
in-flight load, removes it, runs the layout exit handshake, and reports
shutdown exactly when no pending loads and no root page remain; if there
is no root page it panics (`root_page` unwraps); if the pipeline is the
root page's own, shuts down layout for the whole tree and reports
shutdown unconditionally; otherwise removes the matching child page,
shuts its layout down, and keeps running. -/
def handle_exit_pipeline_msg (s : ThreadState) (id : PipelineId) :
    Except PanicKind (ThreadState × Bool) :=
  let s1 : ThreadState := { s with closedPipelines := id :: s.closedPipelines }
  match removeFirstLoad s1.incompleteLoads id with
  | some (load, rest) =>
    let s2 : ThreadState :=
      { s1 with incompleteLoads := rest,
                layoutMsgs := s1.layoutMsgs ++
                  [.prepareToExit load.layoutChan, .exitNow load.layoutChan] }
    let hasPendingLoads := decide (0 < rest.length)
    let hasRootPage := s2.page.isSome
    .ok (s2, !hasPendingLoads && !hasRootPage)
  | none =>
    match s1.page with
    | none => .error .noRootPage
    | some t =>
      if t.root.pipeline = id then
        .ok ({ s1 with layoutMsgs := s1.layoutMsgs ++ shut_down_layout t.iter },
             true)
      else
        match removeSubpage t.subpages id with
        | some (child, rest) =>
          .ok ({ s1 with page := some ⟨t.root, rest⟩,
                         layoutMsgs := s1.layoutMsgs ++ shut_down_layout [child] },
               false)
        | none => .ok (s1, false)

/-- The dispatch loop over the gathered batch (script_thread.rs lines
727-750): messages are processed in collection order; an exit-pipeline
message for which `handle_exit_pipeline_msg` reports shutdown makes the
iteration return the terminal signal immediately, leaving the rest of
the batch unprocessed (returned unconsumed here); every other message is
given to its handler `f`.  The result carries the final state, `true`
when the loop should keep running, and the unprocessed remainder. -/
def dispatchBatch (f : ThreadState → MixedMessage → ThreadState) :
    ThreadState → List MixedMessage →
    Except PanicKind (ThreadState × Bool × List MixedMessage)
  | s, [] => .ok (s, true, [])
  | s, msg :: rest =>
    match msg with
    | .fromConstellation (.exitPipeline id) =>
      match handle_exit_pipeline_msg s id with
      | .error e => .error e
      | .ok (s', true) => .ok (s', false, rest)
      | .ok (s', false) => dispatchBatch f s' rest
    | _ => dispatchBatch f (f s msg) rest

/-- The batched reflow phase (script_thread.rs lines 752-774): when a
root page exists, every page in the tree is issued exactly one reflow,
tagged `ImageLoaded` when the window's pending-reflow counter is
positive and `MissingExplicitReflow` otherwise. -/
def reflowPhase (page : Option PageTree) : List (PipelineId × ReflowReason) :=
  match page with
  | none => []
  | some t =>
    t.iter.map (fun pg =>
      (pg.pipeline,
       if 0 < pg.pendingReflows then ReflowReason.imageLoaded
       else ReflowReason.missingExplicitReflow))

/-- One iteration of `ScriptThread::handle_msgs` (script_thread.rs lines
595-777) after the blocking wait: coalesce the drained messages into a
batch, dispatch the batch, and, unless the dispatch returned the
terminal signal early, issue the batched reflows.  The result carries
the final state, the loop-continuation flag, and the reflow requests
issued in this iteration. -/
def handleMsgsModel (f : ThreadState → MixedMessage → ThreadState)
    (s : ThreadState) (drained : List MixedMessage) :
    Except PanicKind (ThreadState × Bool × List (PipelineId × ReflowReason)) :=
  match coalesceRun initCoalesce drained with
  | none => .error .assertionFailure
  | some cs =>
    match dispatchBatch f s cs.sequential with
    | .error e => .error e
    | .ok (s', false, _) => .ok (s', false, [])
    | .ok (s', true, _) => .ok (s', true, reflowPhase s'.page)

/-- Effects observable from `handle_navigate`: a scroll request sent to
the compositor, or a load-url request sent to the constellation. -/
inductive NavEffect where
  | scrollFragmentPoint (pipeline : PipelineId) (node : Nat)
  | loadUrl (pipeline : PipelineId)
deriving DecidableEq, Repr

/-- `ScriptThread::handle_navigate` (script_thread.rs lines 1414-1443).
When the request's URL has a fragment, the target page's document is
fetched (panicking if the root page or the pipeline's page is missing);
if scheme, scheme data and query agree and the method is GET, the
fragment name is resolved: a matching node is scrolled to, an absent one
does nothing, and the handler returns.  Otherwise, a top-level request
(no subpage id) forwards a load-url message to the constellation. -/
def handle_navigate (s : ThreadState) (pipelineId : PipelineId)
    (subpageId : Option Nat) (loadData : LoadData) :
    Except PanicKind (List NavEffect) :=
  let afterFragment : Except PanicKind (List NavEffect) :=
    match subpageId with
    | some _ => .ok []
    | none => .ok [.loadUrl pipelineId]
  match loadData.url.fragment with
  | some fragment =>
    match s.page with
    | none => .error .noRootPage
    | some t =>
      match t.find pipelineId with
      | none => .error .pageNotFound
      | some page =>
        let url := page.doc.url
        let nurl := loadData.url
        if url.scheme = nurl.scheme ∧ url.schemeData = nurl.schemeData ∧
            url.query = nurl.query ∧ loadData.method = Method.get then
          match page.doc.find_fragment_node fragment with
          | some node => .ok [.scrollFragmentPoint pipelineId node]
          | none => .ok []
        else afterFragment
  | none => afterFragment

/-- The pages currently loaded: the iteration of the root page tree when
one exists, nothing otherwise (script_thread.rs lines 755-757). -/
def pagesOf : Option PageTree → List Page
  | none => []
  | some t => t.iter

/-- The exact condition under which `handle_exit_pipeline_msg` reports
shutdown: the exited pipeline is an in-flight load whose removal leaves
no pending loads and no root page, or the pipeline is the root page's
own pipeline (in which case no load or page check is made). -/
def exitTerminalCond (s : ThreadState) (id : PipelineId) : Prop :=
  match removeFirstLoad s.incompleteLoads id with
  | some (_, rest) => rest = [] ∧ s.page = none
  | none => ∃ t, s.page = some t ∧ t.root.pipeline = id

/-- The pipeline id of an exit-pipeline message, when the message is
one. -/
def exitId? : MixedMessage → Option PipelineId
  | .fromConstellation (.exitPipeline id) => some id
  | _ => none

/-- A message handler that leaves the thread state unchanged, used to
instantiate the dispatch loop at concrete inputs. -/
def idHandler : ThreadState → MixedMessage → ThreadState := fun s _ => s

/-! ### Concrete inputs used by witnesses and counterexamples -/

/-- The registry state of the C2 race: an identity is registered, its
sole handle is dropped (count zero, cleanup message sent), and a new
trusted handle for the same identity is created before the cleanup
message is processed. -/
def raceRegistry : LiveDOMReferences :=
  (((LiveDOMReferences.addRef ⟨[]⟩ 7).dropRef 7 ⟨[]⟩).1).addRef 7

/-- The channel world of the C2 race: the cleanup message sent when the
count reached zero, still unprocessed. -/
def raceWorld : ChanWorld :=
  ((LiveDOMReferences.addRef ⟨[]⟩ 7).dropRef 7 ⟨[]⟩).2

/-- A concrete object whose runtime tag is a mouse event. -/
def mouseEvObj : DomObject := ⟨5, .Event (.UIEvent .MouseEvent)⟩

/-- A concrete object whose runtime tag is a custom event. -/
def customEvObj : DomObject := ⟨6, .Event .CustomEvent⟩

/-- The document of the C9 witness page: URL (1, 2, query 3) and no
fragment-named nodes. -/
def navDoc : Document := ⟨⟨1, 2, some 3, none⟩, []⟩

/-- The C9 witness page. -/
def navPage : Page := ⟨1, 0, 10, navDoc⟩

/-- The C9 witness thread state: one loaded root page, no loads. -/
def navState : ThreadState := ⟨some ⟨navPage, []⟩, [], [], []⟩

/-- The C9 witness load request: same scheme, scheme data and query as
the document, GET, fragment 9 (matching no node). -/
def navLoad : LoadData := ⟨⟨1, 2, some 3, some 9⟩, .get⟩

/-- The attach-layout message (whose collecting-loop arm asserts false). -/
def attachLayoutMsg : MixedMessage := .fromConstellation .attachLayout

/-- An event the collecting loop queues or handles without touching the
pending mouse-move slot: not a mouse-move event and not the asserting
attach-layout message. -/
def nonMouseEvent (ev : MixedMessage) : Prop :=
  isMouseMoveMsg ev = false ∧ ev ≠ attachLayoutMsg

instance (ev : MixedMessage) : Decidable (nonMouseEvent ev) :=
  decidable_of_iff (isMouseMoveMsg ev = false ∧ ev ≠ attachLayoutMsg) Iff.rfl

/-- The invariant maintained by the collecting loop on the batch and the
recorded mouse-move index: with no index recorded the batch has no
mouse-move event; with index `i` recorded the batch holds exactly one
mouse-move event and it sits at position `i`. -/
def batchInv (seq : List MixedMessage) : Option Nat → Prop
  | none => mmCount seq = 0
  | some i =>
    (∃ x, seq[i]? = some x ∧ isMouseMoveMsg x = true) ∧ mmCount seq = 1

/-- The root page of the C3 counterexample: pipeline 1, layout channel
10. -/
def c3Root : Page := ⟨1, 0, 10, ⟨⟨1, 1, none, none⟩, []⟩⟩

/-- The C3 counterexample thread state: the root page for pipeline 1 is
loaded while an in-flight load for pipeline 2 is still pending. -/
def c3State : ThreadState := ⟨some ⟨c3Root, []⟩, [⟨2, 20⟩], [], []⟩

/-- The state `handle_exit_pipeline_msg` produces from `c3State` on an
exit of pipeline 1: the load for pipeline 2 and the page remain while
shutdown is reported. -/
def c3Out : ThreadState :=
  ⟨some ⟨c3Root, []⟩, [⟨2, 20⟩], [1], [.prepareToExit 10, .exitNow 10]⟩

/-- The C4 witness root page: pipeline 1 with two pending reflows. -/
def c4Page1 : Page := ⟨1, 2, 11, ⟨⟨1, 1, none, none⟩, []⟩⟩

/-- The C4 witness child page: pipeline 2 with no pending reflow. -/
def c4Page2 : Page := ⟨2, 0, 12, ⟨⟨1, 1, none, none⟩, []⟩⟩

/-- The C4 witness thread state: two loaded pages, no loads. -/
def c4State : ThreadState := ⟨some ⟨c4Page1, [c4Page2]⟩, [], [], []⟩

/-! ## Claim theorems -/

/-- C1: the claim states that `Trusted::new` installs-or-increments a
registry entry, `clone` increments it, `drop` decrements it, and a
cleanup message is sent each time the count reaches zero.  Evaluating
the embedded source operations shows that no trusted-handle operation
ever sends anything on the stored channel: in particular the failing
input, a construction followed by the drop of the sole handle, sends no
cleanup message at all (and the source maintains no count that could
reach zero). -/
theorem C1_trusted_ops_send_no_cleanup :
    (∀ (ptr chan : Nat) (ops : List TrustedOp) (w : ChanWorld),
      runTrustedOps ptr chan ops w = w) ∧
    runTrustedOps 7 1 [TrustedOp.newOp, TrustedOp.dropOp] ⟨[]⟩ = ⟨[]⟩ := by
  have hgen : ∀ (ptr chan : Nat) (ops : List TrustedOp) (w : ChanWorld),
      runTrustedOps ptr chan ops w = w := by
    intro ptr chan ops w
    induction ops with
    | nil => rfl
    | cons op rest ih =>
      cases op <;>
        simpa [runTrustedOps, Trusted.new, Trusted.clone, Trusted.drop] using ih
  exact ⟨hgen, hgen 7 1 _ _⟩

/-- C2: if, at the time the cleanup handler for an identity runs, the
registry count for that identity is nonzero (because further trusted
handles were created after the count-zero message was sent), the handler
leaves the registry entry untouched and the object remains reachable via
`root`. -/
theorem C2_cleanup_recheck (r : LiveDOMReferences) (ptr c : Nat)
    (h : r.lookup ptr = some c) (hc : c ≠ 0) :
    LiveDOMReferences.cleanup r ptr = r ∧
    (LiveDOMReferences.cleanup r ptr).lookup ptr = some c ∧
    (LiveDOMReferences.cleanup r ptr).canRoot ptr = true := by
  cases c with
  | zero => exact absurd rfl hc
  | succ n =>
    have hcl : LiveDOMReferences.cleanup r ptr = r := by
      unfold LiveDOMReferences.cleanup
      rw [h]
      rfl
    refine ⟨hcl, ?_, ?_⟩
    · rw [hcl, h]
    · rw [hcl]
      unfold LiveDOMReferences.canRoot
      rw [h]
      rfl

/-- C2 witness: in the concrete race, the cleanup message was sent, the
re-registered count is one, and processing the stale cleanup removes
nothing and keeps the object rootable. -/
theorem C2_cleanup_recheck_witness :
    raceWorld.sent = [CommonScriptMsg.refcountCleanup 7] ∧
    raceRegistry.lookup 7 = some 1 ∧
    (LiveDOMReferences.cleanup raceRegistry 7 = raceRegistry ∧
     (LiveDOMReferences.cleanup raceRegistry 7).lookup 7 = some 1 ∧
     (LiveDOMReferences.cleanup raceRegistry 7).canRoot 7 = true) :=
  ⟨by decide, by decide,
   C2_cleanup_recheck raceRegistry 7 1 (by decide) (by decide)⟩

/-- C6: rooting is additive.  Constructing a rooted handle reads no
shared state, and destroying one runs no code (no `Drop` impl, no root
collection), so dropping the handle for one object leaves the heap, the
other handle's identity, and the other handle's dereference untouched,
for any two (possibly equal) objects and either creation order. -/
theorem C6_additive_rooting (h : Heap) (a b : DomObject) :
    Root.dropRoot (Root.from_ref a) h = h ∧
    Heap.derefAt (Root.dropRoot (Root.from_ref a) h) (Root.from_ref b).obj.id
      = Heap.derefAt h b.id ∧
    Heap.derefAt (Root.dropRoot (Root.from_ref b) h) (Root.from_ref a).obj.id
      = Heap.derefAt h a.id ∧
    Root.r (Root.from_ref b) = b ∧
    Root.r (Root.from_ref a) = a ∧
    Root.ptrEq (Root.from_ref a) (Root.from_ref a) = true := by
  refine ⟨rfl, rfl, rfl, rfl, rfl, ?_⟩
  simp [Root.ptrEq, Root.from_ref, Root.new]

/-- C7: for every reference flavor and requested subtype, downcast
returns the same representation exactly when the runtime type tag passes
the subtype test (`is`), and returns nothing otherwise; upcast and
successful downcast preserve the representation and identity. -/
theorem C7_downcast_iff (u : Interface) (obj : DomObject) :
    (Castable.upcast obj = obj) ∧
    (∀ r, Castable.downcast u obj = some r → r = obj) ∧
    (Castable.downcast u obj = some obj ↔ Castable.is u obj = true) ∧
    (Castable.downcast u obj = none ↔ Castable.is u obj = false) ∧
    (Root.downcast u ⟨obj⟩ =
      if Castable.is u obj then some (⟨obj⟩ : Root) else none) ∧
    (LayoutJS.downcast u ⟨obj⟩ =
      if Castable.is u obj then some (⟨obj⟩ : LayoutJS) else none) ∧
    (Root.upcast ⟨obj⟩ = (⟨obj⟩ : Root)) ∧
    (LayoutJS.upcast ⟨obj⟩ = (⟨obj⟩ : LayoutJS)) := by
  refine ⟨rfl, ?_, ?_, ?_, rfl, rfl, rfl, rfl⟩ <;>
    by_cases hb : Castable.is u obj <;>
      simp [Castable.downcast, hb]

/-- C7 witness: downcasting a mouse-event-tagged object to `MouseEvent`
or `UIEvent` succeeds with the same representation, while downcasting a
custom-event-tagged object to `MouseEvent` yields nothing. -/
theorem C7_downcast_iff_witness :
    Castable.downcast ⟨MouseEvent.is_subtype⟩ mouseEvObj = some mouseEvObj ∧
    Castable.downcast ⟨MouseEvent.is_subtype⟩ customEvObj = none ∧
    Castable.downcast ⟨UIEvent.is_subtype⟩ mouseEvObj = some mouseEvObj :=
  ⟨(C7_downcast_iff ⟨MouseEvent.is_subtype⟩ mouseEvObj).2.2.1.mpr (by decide),
   (C7_downcast_iff ⟨MouseEvent.is_subtype⟩ customEvObj).2.2.2.1.mpr (by decide),
   (C7_downcast_iff ⟨UIEvent.is_subtype⟩ mouseEvObj).2.2.1.mpr (by decide)⟩

/-- C8: `or_init` on an empty cell invokes the initializer exactly once,
stores its result, and returns it; on a full cell it returns the held
value without invoking the initializer; in both cases the cell afterward
holds exactly the returned value. -/
theorem C8_or_init (c : MutNullableHeap) (cb : Unit → Nat) :
    (c.cell = none → c.or_init cb = (cb (), ⟨some (cb ())⟩, 1)) ∧
    (∀ v, c.cell = some v → c.or_init cb = (v, c, 0)) ∧
    (c.or_init cb).2.1.cell = some (c.or_init cb).1 := by
  obtain ⟨cell⟩ := c
  cases cell with
  | none =>
    refine ⟨fun _ => rfl, fun v hv => ?_, rfl⟩
    exact absurd hv (by simp)
  | some v =>
    refine ⟨fun hv => absurd hv (by simp), fun w hw => ?_, rfl⟩
    have : v = w := by simpa using hw
    subst this
    rfl

/-- C8 witness: `or_init` evaluated on a concrete empty cell and a
concrete full cell. -/
theorem C8_or_init_witness :
    MutNullableHeap.or_init ⟨none⟩ (fun _ => 42) = (42, ⟨some 42⟩, 1) ∧
    MutNullableHeap.or_init ⟨some 3⟩ (fun _ => 42) = (3, ⟨some 3⟩, 0) :=
  ⟨(C8_or_init ⟨none⟩ (fun _ => 42)).1 rfl,
   (C8_or_init ⟨some 3⟩ (fun _ => 42)).2.1 3 rfl⟩

/-- C9: a navigate request targeting a same-document fragment (equal
scheme, scheme data and query, GET method) whose fragment name matches
no node completes with no panic, no scroll request and no load request:
the not-found lookup result is handled as an absent value. -/
theorem C9_navigate_fragment_not_found
    (s : ThreadState) (pipelineId : PipelineId) (subpageId : Option Nat)
    (loadData : LoadData) (t : PageTree) (page : Page) (frag : Nat)
    (hp : s.page = some t) (hf : t.find pipelineId = some page)
    (hfrag : loadData.url.fragment = some frag)
    (hscheme : page.doc.url.scheme = loadData.url.scheme)
    (hsd : page.doc.url.schemeData = loadData.url.schemeData)
    (hq : page.doc.url.query = loadData.url.query)
    (hm : loadData.method = Method.get)
    (hnode : page.doc.find_fragment_node frag = none) :
    handle_navigate s pipelineId subpageId loadData = .ok [] := by
  unfold handle_navigate
  rw [hfrag, hp]
  dsimp only
  rw [hf]
  dsimp only
  rw [if_pos ⟨hscheme, hsd, hq, hm⟩]
  rw [hnode]

/-- C9 witness: the concrete fragment navigation completes with no
effect and no panic. -/
theorem C9_navigate_fragment_not_found_witness :
    handle_navigate navState 1 none navLoad = .ok [] :=
  C9_navigate_fragment_not_found navState 1 none navLoad ⟨navPage, []⟩ navPage 9
    (by decide) (by decide) (by decide) (by decide) (by decide) (by decide)
    (by decide) (by decide)

/-! ### Batch-building lemmas for the collecting loop -/

/-- Mouse-move counts add over batch concatenation. -/
theorem mmCount_append (l1 l2 : List MixedMessage) :
    mmCount (l1 ++ l2) = mmCount l1 + mmCount l2 := by
  induction l1 with
  | nil => simp [mmCount]
  | cons e rest ih => simp [mmCount, ih, Nat.add_assoc]

/-- An index known to hold some element is in bounds. -/
theorem lt_of_getq (l : List MixedMessage) (i : Nat) (x : MixedMessage)
    (h : l[i]? = some x) : i < l.length :=
  (List.getElem?_eq_some.mp h).1

/-- Replacing a mouse-move entry by a mouse-move event preserves the
batch's mouse-move count. -/
theorem mmCount_set_mm (l : List MixedMessage) (i : Nat) (e : MixedMessage)
    (he : isMouseMoveMsg e = true) (x : MixedMessage)
    (hx : l[i]? = some x) (hxmm : isMouseMoveMsg x = true) :
    mmCount (l.set i e) = mmCount l := by
  induction l generalizing i with
  | nil => simp at hx
  | cons hd t ih =>
    cases i with
    | zero =>
      simp only [List.getElem?_cons_zero, Option.some.injEq] at hx
      subst hx
      simp [List.set, mmCount, hxmm, he]
    | succ n =>
      simp only [List.getElem?_cons_succ] at hx
      simp [List.set, mmCount, ih n hx]

/-- Setting the element at the boundary position of an append replaces
the head of the right part. -/
theorem appendSetMid (l1 : List MixedMessage) (x y : MixedMessage)
    (l2 : List MixedMessage) :
    (l1 ++ x :: l2).set l1.length y = l1 ++ y :: l2 := by
  induction l1 with
  | nil => rfl
  | cons e rest ih =>
    show e :: ((rest ++ x :: l2).set rest.length y) = e :: (rest ++ y :: l2)
    rw [ih]

/-- Reading at the boundary position of an append yields the head of the
right part. -/
theorem getqMid (l1 : List MixedMessage) (x : MixedMessage)
    (l2 : List MixedMessage) :
    (l1 ++ x :: l2)[l1.length]? = some x := by
  induction l1 with
  | nil => simp
  | cons e rest ih => simpa using ih

/-- Processing one non-mouse-move, non-attach-layout event leaves the
recorded mouse-move index unchanged and only ever appends (zero or one)
non-mouse-move entries to the batch. -/
theorem coalesceStep_nonmm (s : CoalesceState) (ev : MixedMessage)
    (hev : nonMouseEvent ev) :
    ∃ s', coalesceStep s ev = some s' ∧
      s'.mouseMoveEventIndex = s.mouseMoveEventIndex ∧
      ∃ δ, s'.sequential = s.sequential ++ δ ∧ mmCount δ = 0 := by
  obtain ⟨hmm, hal⟩ := hev
  cases ev with
  | fromConstellation m =>
    cases m with
    | attachLayout => exact absurd rfl hal
    | resize id size => exact ⟨_, rfl, rfl, [], by simp, rfl⟩
    | viewport id rect => exact ⟨_, rfl, rfl, [], by simp, rfl⟩
    | tickAllAnimations id =>
      by_cases hc : id ∈ s.animationTicks
      · refine ⟨s, ?_, rfl, [], by simp, rfl⟩
        simp [coalesceStep, hc]
      · refine ⟨{ s with
            animationTicks := id :: s.animationTicks,
            sequential := s.sequential ++ [.fromConstellation (.tickAllAnimations id)] },
          ?_, rfl, [.fromConstellation (.tickAllAnimations id)], rfl, ?_⟩
        · simp [coalesceStep, hc]
        · simp [mmCount, isMouseMoveMsg]
    | sendEvent id cev =>
      cases cev with
      | mouseMoveEvent p => simp [isMouseMoveMsg] at hmm
      | otherEvent payload =>
        exact ⟨_, rfl, rfl, [.fromConstellation (.sendEvent id (.otherEvent payload))],
          rfl, by simp [mmCount, isMouseMoveMsg]⟩
    | exitPipeline id =>
      exact ⟨_, rfl, rfl, [.fromConstellation (.exitPipeline id)], rfl,
        by simp [mmCount, isMouseMoveMsg]⟩
    | otherMsg payload =>
      exact ⟨_, rfl, rfl, [.fromConstellation (.otherMsg payload)], rfl,
        by simp [mmCount, isMouseMoveMsg]⟩
  | fromScript payload =>
    exact ⟨_, rfl, rfl, [.fromScript payload], rfl, by simp [mmCount, isMouseMoveMsg]⟩
  | fromScheduler payload =>
    exact ⟨_, rfl, rfl, [.fromScheduler payload], rfl, by simp [mmCount, isMouseMoveMsg]⟩
  | fromDevtools payload =>
    exact ⟨_, rfl, rfl, [.fromDevtools payload], rfl, by simp [mmCount, isMouseMoveMsg]⟩
  | fromImageCache payload =>
    exact ⟨_, rfl, rfl, [.fromImageCache payload], rfl, by simp [mmCount, isMouseMoveMsg]⟩

/-- Running the collecting loop over non-mouse-move events never touches
the recorded mouse-move index and only appends non-mouse-move entries. -/
theorem coalesceRun_nonmm (evs : List MixedMessage) (s : CoalesceState)
    (hg : ∀ ev ∈ evs, nonMouseEvent ev) :
    ∃ s', coalesceRun s evs = some s' ∧
      s'.mouseMoveEventIndex = s.mouseMoveEventIndex ∧
      ∃ δ, s'.sequential = s.sequential ++ δ ∧ mmCount δ = 0 := by
  induction evs generalizing s with
  | nil => exact ⟨s, rfl, rfl, [], by simp, rfl⟩
  | cons ev rest ih =>
    obtain ⟨s1, hstep, hidx1, δ1, hseq1, hc1⟩ :=
      coalesceStep_nonmm s ev (hg ev (by simp))
    obtain ⟨s2, hrun, hidx2, δ2, hseq2, hc2⟩ :=
      ih s1 (fun e he => hg e (by simp [he]))
    refine ⟨s2, ?_, ?_, δ1 ++ δ2, ?_, ?_⟩
    · simp [coalesceRun, hstep, hrun]
    · rw [hidx2, hidx1]
    · rw [hseq2, hseq1, List.append_assoc]
    · rw [mmCount_append, hc1, hc2]

/-- Unfolding of the collecting loop on a cons with a successful step. -/
theorem coalesceRun_cons (s : CoalesceState) (ev : MixedMessage)
    (rest : List MixedMessage) (s1 : CoalesceState)
    (hstep : coalesceStep s ev = some s1) :
    coalesceRun s (ev :: rest) = coalesceRun s1 rest := by
  simp [coalesceRun, hstep]

/-- The collecting loop splits over batch concatenation when the first
part completes. -/
theorem coalesceRun_append (s : CoalesceState) (l1 l2 : List MixedMessage)
    (s1 : CoalesceState) (h : coalesceRun s l1 = some s1) :
    coalesceRun s (l1 ++ l2) = coalesceRun s1 l2 := by
  induction l1 generalizing s with
  | nil =>
    simp only [coalesceRun, Option.some.injEq] at h
    subst h
    simp
  | cons ev rest ih =>
    simp only [coalesceRun] at h
    cases hstep : coalesceStep s ev with
    | none => rw [hstep] at h; simp at h
    | some s2 =>
      rw [hstep] at h
      rw [List.cons_append, coalesceRun_cons s ev (rest ++ l2) s2 hstep]
      exact ih s2 h

/-- A mouse-move event arriving with no mouse-move pending is appended
and its index recorded (script_thread.rs lines 690-694). -/
theorem coalesceStep_mm_none (s : CoalesceState) (id : PipelineId) (p : Nat)
    (h : s.mouseMoveEventIndex = none) :
    coalesceStep s (mmMsg id p) =
      some { s with mouseMoveEventIndex := some s.sequential.length,
                    sequential := s.sequential ++ [mmMsg id p] } := by
  simp [coalesceStep, mmMsg, h]

/-- A mouse-move event arriving with one pending replaces it in place at
the recorded index (script_thread.rs lines 695-697). -/
theorem coalesceStep_mm_some (s : CoalesceState) (id : PipelineId) (p : Nat)
    (i : Nat) (h : s.mouseMoveEventIndex = some i) :
    coalesceStep s (mmMsg id p) =
      some { s with sequential := s.sequential.set i (mmMsg id p) } := by
  simp [coalesceStep, mmMsg, h]

/-- C5: an input sequence with two mouse-move events and unrelated
events interleaved after them coalesces into a batch with exactly one
mouse-move event, the later one, placed at the position the earlier one
occupied, with every batch entry before that position unchanged. -/
theorem C5_mouse_move_coalescing
    (pre mid post : List MixedMessage) (a b : PipelineId) (p q : Nat)
    (hpre : ∀ ev ∈ pre, nonMouseEvent ev)
    (hmid : ∀ ev ∈ mid, nonMouseEvent ev)
    (hpost : ∀ ev ∈ post, nonMouseEvent ev) :
    ∃ s0 s', coalesceRun initCoalesce pre = some s0 ∧
      coalesceRun initCoalesce
        (pre ++ mmMsg a p :: (mid ++ mmMsg b q :: post)) = some s' ∧
      mmCount s0.sequential = 0 ∧
      (∃ suffix, s'.sequential = s0.sequential ++ mmMsg b q :: suffix ∧
        mmCount suffix = 0) ∧
      mmCount s'.sequential = 1 ∧
      s'.sequential[s0.sequential.length]? = some (mmMsg b q) ∧
      (∀ j, j < s0.sequential.length →
        s'.sequential[j]? = s0.sequential[j]?) := by
  obtain ⟨s0, hrun0, hidx0, δ0, hseq0, hc0⟩ :=
    coalesceRun_nonmm pre initCoalesce hpre
  have hidx0' : s0.mouseMoveEventIndex = none := hidx0
  have hc0seq : mmCount s0.sequential = 0 := by
    rw [hseq0]
    simpa [initCoalesce] using hc0
  have hstep1 := coalesceStep_mm_none s0 a p hidx0'
  obtain ⟨s2, hrun2, hidx2, δm, hseqm, hcm⟩ :=
    coalesceRun_nonmm mid
      { s0 with mouseMoveEventIndex := some s0.sequential.length,
                sequential := s0.sequential ++ [mmMsg a p] } hmid
  have hidx2' : s2.mouseMoveEventIndex = some s0.sequential.length := hidx2
  have hstep3 := coalesceStep_mm_some s2 b q s0.sequential.length hidx2'
  obtain ⟨s', hrun', hidx', δp, hseqp, hcp⟩ :=
    coalesceRun_nonmm post
      { s2 with sequential := s2.sequential.set s0.sequential.length (mmMsg b q) }
      hpost
  have hseq2 : s2.sequential = s0.sequential ++ mmMsg a p :: δm := by
    have := hseqm
    simpa [List.append_assoc] using this
  have hset : s2.sequential.set s0.sequential.length (mmMsg b q)
      = s0.sequential ++ mmMsg b q :: δm := by
    rw [hseq2, appendSetMid]
  have hfinal : s'.sequential = s0.sequential ++ mmMsg b q :: (δm ++ δp) := by
    rw [hseqp]
    dsimp only
    rw [hset, List.append_assoc]
    rfl
  have hrunAll : coalesceRun initCoalesce
      (pre ++ mmMsg a p :: (mid ++ mmMsg b q :: post)) = some s' := by
    rw [coalesceRun_append initCoalesce pre _ s0 hrun0]
    rw [coalesceRun_cons s0 _ _ _ hstep1]
    rw [coalesceRun_append _ mid _ s2 hrun2]
    rw [coalesceRun_cons s2 _ _ _ hstep3]
    exact hrun'
  refine ⟨s0, s', hrun0, hrunAll, hc0seq, ⟨δm ++ δp, hfinal, ?_⟩, ?_, ?_, ?_⟩
  · rw [mmCount_append, hcm, hcp]
  · rw [hfinal, mmCount_append, hc0seq]
    show 0 + mmCount (mmMsg b q :: (δm ++ δp)) = 1
    rw [Nat.zero_add]
    show (if isMouseMoveMsg (mmMsg b q) then 1 else 0) + mmCount (δm ++ δp) = 1
    rw [mmCount_append, hcm, hcp]
    simp [isMouseMoveMsg, mmMsg]
  · rw [hfinal]
    exact getqMid _ _ _
  · intro j hj
    rw [hfinal, List.getElem?_append_left hj]

/-- C5 witness: a concrete drained sequence with two mouse-move events
separated and followed by unrelated events. -/
theorem C5_mouse_move_coalescing_witness :
    ∃ s0 s', coalesceRun initCoalesce [MixedMessage.fromScript 1] = some s0 ∧
      coalesceRun initCoalesce
        ([MixedMessage.fromScript 1] ++ mmMsg 1 10 ::
          ([MixedMessage.fromConstellation (.otherMsg 2)] ++ mmMsg 2 20 ::
            [MixedMessage.fromScheduler 3])) = some s' ∧
      mmCount s0.sequential = 0 ∧
      (∃ suffix, s'.sequential = s0.sequential ++ mmMsg 2 20 :: suffix ∧
        mmCount suffix = 0) ∧
      mmCount s'.sequential = 1 ∧
      s'.sequential[s0.sequential.length]? = some (mmMsg 2 20) ∧
      (∀ j, j < s0.sequential.length →
        s'.sequential[j]? = s0.sequential[j]?) :=
  C5_mouse_move_coalescing [MixedMessage.fromScript 1]
    [MixedMessage.fromConstellation (.otherMsg 2)]
    [MixedMessage.fromScheduler 3] 1 2 10 20
    (by decide) (by decide) (by decide)

/-- Appending a non-mouse-move entry preserves the batch invariant. -/
theorem batchInv_append_nonmm (seq : List MixedMessage) (idx : Option Nat)
    (ev : MixedMessage) (hev : isMouseMoveMsg ev = false)
    (h : batchInv seq idx) : batchInv (seq ++ [ev]) idx := by
  cases idx with
  | none =>
    show mmCount (seq ++ [ev]) = 0
    rw [mmCount_append, h]
    simp [mmCount, hev]
  | some i =>
    obtain ⟨⟨x, hx, hxmm⟩, hcount⟩ := h
    refine ⟨⟨x, ?_, hxmm⟩, ?_⟩
    · rw [List.getElem?_append_left (lt_of_getq seq i x hx)]
      exact hx
    · rw [mmCount_append, hcount]
      simp [mmCount, hev]

/-- Recording the first mouse-move event establishes the one-mouse-move
batch invariant. -/
theorem batchInv_mm_push (seq : List MixedMessage) (ev : MixedMessage)
    (hev : isMouseMoveMsg ev = true) (h : batchInv seq none) :
    batchInv (seq ++ [ev]) (some seq.length) := by
  refine ⟨⟨ev, List.getElem?_concat_length seq ev, hev⟩, ?_⟩
  rw [mmCount_append, h]
  simp [mmCount, hev]

/-- Replacing the recorded mouse-move event in place preserves the
one-mouse-move batch invariant. -/
theorem batchInv_mm_set (seq : List MixedMessage) (i : Nat) (ev : MixedMessage)
    (hev : isMouseMoveMsg ev = true) (h : batchInv seq (some i)) :
    batchInv (seq.set i ev) (some i) := by
  obtain ⟨⟨x, hx, hxmm⟩, hcount⟩ := h
  have hlt : i < seq.length := lt_of_getq seq i x hx
  refine ⟨⟨ev, ?_, hev⟩, ?_⟩
  · simp [List.getElem?_set_self', List.getElem?_eq_getElem hlt]
  · rw [mmCount_set_mm seq i ev hev x hx hxmm, hcount]

/-- Every step of the collecting loop preserves the batch invariant. -/
theorem coalesceStep_inv (s s' : CoalesceState) (ev : MixedMessage)
    (hstep : coalesceStep s ev = some s')
    (h : batchInv s.sequential s.mouseMoveEventIndex) :
    batchInv s'.sequential s'.mouseMoveEventIndex := by
  cases ev with
  | fromConstellation m =>
    cases m with
    | attachLayout => simp [coalesceStep] at hstep
    | resize id size =>
      obtain rfl : _ = s' := by simpa [coalesceStep] using hstep
      exact h
    | viewport id rect =>
      obtain rfl : _ = s' := by simpa [coalesceStep] using hstep
      exact h
    | tickAllAnimations id =>
      by_cases hc : id ∈ s.animationTicks
      · obtain rfl : s = s' := by simpa [coalesceStep, hc] using hstep
        exact h
      · obtain rfl : _ = s' := by simpa [coalesceStep, hc] using hstep
        exact batchInv_append_nonmm _ _ _ (by simp [isMouseMoveMsg]) h
    | sendEvent id cev =>
      cases cev with
      | mouseMoveEvent p =>
        cases hidx : s.mouseMoveEventIndex with
        | none =>
          obtain rfl : _ = s' := by simpa [coalesceStep, hidx] using hstep
          rw [hidx] at h
          exact batchInv_mm_push _ _ (by simp [isMouseMoveMsg]) h
        | some i =>
          obtain rfl : _ = s' := by simpa [coalesceStep, hidx] using hstep
          rw [hidx] at h
          exact batchInv_mm_set _ _ _ (by simp [isMouseMoveMsg]) h
      | otherEvent payload =>
        obtain rfl : _ = s' := by simpa [coalesceStep] using hstep
        exact batchInv_append_nonmm _ _ _ (by simp [isMouseMoveMsg]) h
    | exitPipeline id =>
      obtain rfl : _ = s' := by simpa [coalesceStep] using hstep
      exact batchInv_append_nonmm _ _ _ (by simp [isMouseMoveMsg]) h
    | otherMsg payload =>
      obtain rfl : _ = s' := by simpa [coalesceStep] using hstep
      exact batchInv_append_nonmm _ _ _ (by simp [isMouseMoveMsg]) h
  | fromScript payload =>
    obtain rfl : _ = s' := by simpa [coalesceStep] using hstep
    exact batchInv_append_nonmm _ _ _ (by simp [isMouseMoveMsg]) h
  | fromScheduler payload =>
    obtain rfl : _ = s' := by simpa [coalesceStep] using hstep
    exact batchInv_append_nonmm _ _ _ (by simp [isMouseMoveMsg]) h
  | fromDevtools payload =>
    obtain rfl : _ = s' := by simpa [coalesceStep] using hstep
    exact batchInv_append_nonmm _ _ _ (by simp [isMouseMoveMsg]) h
  | fromImageCache payload =>
    obtain rfl : _ = s' := by simpa [coalesceStep] using hstep
    exact batchInv_append_nonmm _ _ _ (by simp [isMouseMoveMsg]) h

/-- The collecting loop preserves the batch invariant. -/
theorem coalesceRun_inv (evs : List MixedMessage) (s s' : CoalesceState)
    (hrun : coalesceRun s evs = some s')
    (h : batchInv s.sequential s.mouseMoveEventIndex) :
    batchInv s'.sequential s'.mouseMoveEventIndex := by
  induction evs generalizing s with
  | nil =>
    simp only [coalesceRun, Option.some.injEq] at hrun
    subst hrun
    exact h
  | cons ev rest ih =>
    simp only [coalesceRun] at hrun
    cases hstep : coalesceStep s ev with
    | none => rw [hstep] at hrun; simp at hrun
    | some s1 =>
      rw [hstep] at hrun
      exact ih s1 hrun (coalesceStep_inv s s1 ev hstep h)

/-- C10: mouse-move coalescing is global across pipelines.  Any batch the
collecting loop builds holds at most one mouse-move event in total, and
a later mouse-move event for any pipeline replaces in place a pending
mouse-move event for a different pipeline. -/
theorem C10_coalescing_global :
    (∀ (evs : List MixedMessage) (s' : CoalesceState),
      coalesceRun initCoalesce evs = some s' →
        mmCount s'.sequential ≤ 1) ∧
    (∀ (a b : PipelineId) (p q : Nat),
      coalesceRun initCoalesce [mmMsg a p, mmMsg b q] =
        some ⟨[mmMsg b q], some 0, [], []⟩) := by
  constructor
  · intro evs s' hrun
    have hinv := coalesceRun_inv evs initCoalesce s' hrun (by exact rfl)
    cases hidx : s'.mouseMoveEventIndex with
    | none =>
      rw [hidx] at hinv
      exact hinv.le.trans (Nat.zero_le 1)
    | some i =>
      rw [hidx] at hinv
      exact hinv.2.le
  · intro a b p q
    rfl

/-- C10 witness: two mouse-move events addressed to different pipelines
coalesce to the later one alone, and the resulting batch's mouse-move
count is at most one. -/
theorem C10_coalescing_global_witness :
    coalesceRun initCoalesce [mmMsg 1 5, mmMsg 2 6] =
      some ⟨[mmMsg 2 6], some 0, [], []⟩ ∧
    mmCount (⟨[mmMsg 2 6], some 0, [], []⟩ : CoalesceState).sequential ≤ 1 :=
  ⟨C10_coalescing_global.2 1 2 5 6,
   C10_coalescing_global.1 [mmMsg 1 5, mmMsg 2 6] _
     (C10_coalescing_global.2 1 2 5 6)⟩

/-! ### Dispatch-loop lemmas -/

/-- Dispatching a non-exit message hands it to its handler and
continues with the rest of the batch. -/
theorem dispatchBatch_cons_nonexit (f : ThreadState → MixedMessage → ThreadState)
    (s : ThreadState) (msg : MixedMessage) (rest : List MixedMessage)
    (hx : exitId? msg = none) :
    dispatchBatch f s (msg :: rest) = dispatchBatch f (f s msg) rest := by
  cases msg with
  | fromConstellation m => cases m <;> first | rfl | simp [exitId?] at hx
  | fromScript p => rfl
  | fromScheduler p => rfl
  | fromDevtools p => rfl
  | fromImageCache p => rfl

/-- C3 counterexample: from the concrete state with the root page for
pipeline 1 loaded and an in-flight load for pipeline 2 pending,
processing exit-pipeline for pipeline 1 reports shutdown (and the
dispatched batch returns the terminal signal) even though an in-flight
load and the root page both remain, refuting the claim that the loop
never signals termination while an in-flight load or an active page
remains. -/
theorem C3_root_exit_counterexample :
    handle_exit_pipeline_msg c3State 1 = .ok (c3Out, true) ∧
    dispatchBatch idHandler c3State [.fromConstellation (.exitPipeline 1)] =
      .ok (c3Out, false, []) ∧
    c3Out.incompleteLoads = [⟨2, 20⟩] ∧
    c3Out.page = some ⟨c3Root, []⟩ :=
  ⟨rfl, rfl, rfl, rfl⟩

/-- C3 amended: one iteration returns the terminal signal exactly on
processing an exit-pipeline message for which the exit handler reports
shutdown, short-circuiting the remaining batch; and the handler reports
shutdown exactly when the exited pipeline is an in-flight load whose
removal leaves no pending loads and no root page, or is the root page's
own pipeline (in which case termination is reported regardless of
remaining in-flight loads or the still-installed page). -/
theorem C3_exit_terminal_amended :
    (∀ (s : ThreadState) (id : PipelineId) (out : ThreadState × Bool),
      handle_exit_pipeline_msg s id = .ok out →
        (out.2 = true ↔ exitTerminalCond s id)) ∧
    (∀ (f : ThreadState → MixedMessage → ThreadState) (s : ThreadState)
        (msgs : List MixedMessage) (s' : ThreadState) (rest : List MixedMessage),
      dispatchBatch f s msgs = .ok (s', false, rest) →
        ∃ pre s₀ id,
          msgs = pre ++ .fromConstellation (.exitPipeline id) :: rest ∧
          dispatchBatch f s pre = .ok (s₀, true, []) ∧
          handle_exit_pipeline_msg s₀ id = .ok (s', true)) ∧
    (∀ (f : ThreadState → MixedMessage → ThreadState) (s₀ : ThreadState)
        (id : PipelineId) (rest : List MixedMessage) (s' : ThreadState),
      handle_exit_pipeline_msg s₀ id = .ok (s', true) →
        dispatchBatch f s₀ (.fromConstellation (.exitPipeline id) :: rest) =
          .ok (s', false, rest)) := by
  refine ⟨?_, ?_, ?_⟩
  · intro s id out hout
    unfold handle_exit_pipeline_msg at hout
    dsimp only at hout
    unfold exitTerminalCond
    cases hrem : removeFirstLoad s.incompleteLoads id with
    | some pr =>
      obtain ⟨load, rest⟩ := pr
      rw [hrem] at hout
      dsimp only at hout
      injection hout with h1
      subst h1
      cases rest with
      | nil => cases hp : s.page <;> simp [hp]
      | cons l ls => cases hp : s.page <;> simp [hp]
    | none =>
      rw [hrem] at hout
      dsimp only at hout ⊢
      cases hp : s.page with
      | none =>
        rw [hp] at hout
        exact absurd hout (by simp)
      | some t =>
        rw [hp] at hout
        dsimp only at hout
        by_cases ht : t.root.pipeline = id
        · rw [if_pos ht] at hout
          injection hout with h1
          subst h1
          simp only [true_iff]
          exact ⟨t, rfl, ht⟩
        · rw [if_neg ht] at hout
          cases hsub : removeSubpage t.subpages id with
          | some pr2 =>
            obtain ⟨child, rest2⟩ := pr2
            rw [hsub] at hout
            injection hout with h1
            subst h1
            simp only [Bool.false_eq_true, false_iff]
            rintro ⟨t', ht', hid⟩
            rw [Option.some.injEq] at ht'
            subst ht'
            exact ht hid
          | none =>
            rw [hsub] at hout
            injection hout with h1
            subst h1
            simp only [Bool.false_eq_true, false_iff]
            rintro ⟨t', ht', hid⟩
            rw [Option.some.injEq] at ht'
            subst ht'
            exact ht hid
  · intro f s msgs
    induction msgs generalizing s with
    | nil =>
      intro s' rest h
      simp [dispatchBatch] at h
    | cons msg tail ih =>
      intro s' rest h
      cases hx : exitId? msg with
      | some id =>
        have hmsg : msg = .fromConstellation (.exitPipeline id) := by
          cases msg with
          | fromConstellation m => cases m <;> simp_all [exitId?]
          | fromScript p => simp [exitId?] at hx
          | fromScheduler p => simp [exitId?] at hx
          | fromDevtools p => simp [exitId?] at hx
          | fromImageCache p => simp [exitId?] at hx
        subst hmsg
        simp only [dispatchBatch] at h
        cases hh : handle_exit_pipeline_msg s id with
        | error e => rw [hh] at h; simp at h
        | ok pr =>
          obtain ⟨s₁, b⟩ := pr
          rw [hh] at h
          cases b with
          | true =>
            simp only [Except.ok.injEq, Prod.mk.injEq] at h
            obtain ⟨hs, _, hr⟩ := h
            subst hs
            subst hr
            exact ⟨[], s, id, rfl, rfl, hh⟩
          | false =>
            obtain ⟨pre, s₀, id', htail, hpre, hexit⟩ := ih s₁ s' rest h
            refine ⟨.fromConstellation (.exitPipeline id) :: pre, s₀, id', ?_, ?_, hexit⟩
            · rw [htail]
              rfl
            · simp only [dispatchBatch, hh]
              exact hpre
      | none =>
        rw [dispatchBatch_cons_nonexit f s msg tail hx] at h
        obtain ⟨pre, s₀, id', htail, hpre, hexit⟩ := ih (f s msg) s' rest h
        refine ⟨msg :: pre, s₀, id', ?_, ?_, hexit⟩
        · rw [htail]
          rfl
        · rw [dispatchBatch_cons_nonexit f s msg pre hx]
          exact hpre
  · intro f s₀ id rest s' hh
    simp only [dispatchBatch, hh]

/-- C3 amended-claim witness: processing the concrete exit message for
the root pipeline short-circuits the rest of the batch and returns the
terminal signal. -/
theorem C3_exit_terminal_amended_witness :
    dispatchBatch idHandler c3State
      [.fromConstellation (.exitPipeline 1), .fromScript 9] =
      .ok (c3Out, false, [.fromScript 9]) :=
  C3_exit_terminal_amended.2.2 idHandler c3State 1 [.fromScript 9] c3Out rfl

/-- The reflow phase issues exactly the per-page map of tagged reflow
requests. -/
theorem reflowPhase_eq_map (p : Option PageTree) :
    reflowPhase p = (pagesOf p).map (fun pg =>
      (pg.pipeline,
       if 0 < pg.pendingReflows then ReflowReason.imageLoaded
       else ReflowReason.missingExplicitReflow)) := by
  cases p <;> rfl

/-- C4: in any iteration whose batch dispatch completes without the
terminal short-circuit, every currently loaded page receives exactly one
reflow request, tagged by whether its window's pending-reflow counter is
nonzero; the requests follow the page-tree order, one per page. -/
theorem C4_reflow_completeness
    (f : ThreadState → MixedMessage → ThreadState) (s : ThreadState)
    (drained : List MixedMessage) (s' : ThreadState)
    (reflows : List (PipelineId × ReflowReason))
    (h : handleMsgsModel f s drained = .ok (s', true, reflows)) :
    reflows.length = (pagesOf s'.page).length ∧
    ∀ (i : Nat) (pg : Page), (pagesOf s'.page)[i]? = some pg →
      reflows[i]? = some (pg.pipeline,
        if 0 < pg.pendingReflows then ReflowReason.imageLoaded
        else ReflowReason.missingExplicitReflow) := by
  have hr : reflows = reflowPhase s'.page := by
    unfold handleMsgsModel at h
    split at h
    · simp at h
    · split at h
      · simp at h
      · simp at h
      · simp only [Except.ok.injEq, Prod.mk.injEq] at h
        obtain ⟨hs, _, hrf⟩ := h
        subst hs
        exact hrf.symm
  subst hr
  rw [reflowPhase_eq_map]
  constructor
  · exact List.length_map _ _
  · intro i pg hpg
    rw [List.getElem?_map _ _ i, hpg]
    rfl

/-- C4 witness: a concrete iteration over two loaded pages (pending
counters 2 and 0) issues exactly the two tagged reflows. -/
theorem C4_reflow_completeness_witness :
    ([(1, ReflowReason.imageLoaded), (2, ReflowReason.missingExplicitReflow)]
        : List (PipelineId × ReflowReason)).length =
      (pagesOf c4State.page).length ∧
    ∀ (i : Nat) (pg : Page), (pagesOf c4State.page)[i]? = some pg →
      ([(1, ReflowReason.imageLoaded), (2, ReflowReason.missingExplicitReflow)]
          : List (PipelineId × ReflowReason))[i]? = some (pg.pipeline,
        if 0 < pg.pendingReflows then ReflowReason.imageLoaded
        else ReflowReason.missingExplicitReflow) :=
  C4_reflow_completeness idHandler c4State [.fromScript 9] c4State
    [(1, .imageLoaded), (2, .missingExplicitReflow)] rfl

end ServoVdom
